import Mathlib

/-!
# Verification of the intent-application engine

A shallow embedding of `src/game/lanes_and_cars/planning/current_plan/intent.rs`,
the intent-application engine of the road-network editor: given the current plan
snapshot, a pending user intent and read-only context (committed strokes,
settings), it produces the next plan snapshot.

Modelling conventions:
* The scalar type `N` (`f64` in the source) is modelled as `ℚ`.
* The external geometry capability (the `descartes` crate and the stroke/path
  operations of `lane_stroke.rs`, which are outside the embedded file) is kept
  abstract as a record `Geom` of operations, exactly the interface the source
  consumes: arc end-directions, arc-length queries (`along`, `direction_along`,
  `project`, `length`), rough-equality tolerance tests, well-formedness,
  subsectioning and the moved-subsection decomposition.
* Rust panics (`expect`, `unwrap`, out-of-bounds indexing) are modelled by
  `Option`: a handler returns `none` exactly when the corresponding source
  code panics.  The dispatcher distinguishes the `expect("still built strokes
  needed")` precondition failure from handler-internal panics via `ApplyError`.
* `CVec` is modelled as `List`; `CDict` (and the `FnvHashMap` used during
  move-selection, whose iteration order is unspecified in Rust) is modelled as
  an association list with unique keys, iterated in insertion order.
-/

namespace Citybound

/-- Scalar type standing for the source's `N` (`f64`), modelled as `ℚ`. -/
abbrev N := ℚ

/-- 2-D vector (`descartes::V2`). -/
abbrev V2 := ℚ × ℚ

/-- 2-D point (`descartes::P2`). -/
abbrev P2 := ℚ × ℚ

/-- Componentwise vector/point addition. -/
def vadd (a b : V2) : V2 := (a.1 + b.1, a.2 + b.2)

/-- Componentwise vector/point subtraction. -/
def vsub (a b : V2) : V2 := (a.1 - b.1, a.2 - b.2)

/-- Vector negation. -/
def vneg (a : V2) : V2 := (-a.1, -a.2)

/-- Scalar multiplication of a vector. -/
def smulv (k : ℚ) (a : V2) : V2 := (k * a.1, k * a.2)

/-- Dot product. -/
def dotv (a b : V2) : ℚ := a.1 * b.1 + a.2 * b.2

/-- Rust's `f64::signum` restricted to non-NaN inputs: `-1` for negative
numbers, `1` for positive numbers and (positive) zero. -/
def signumq (x : ℚ) : ℚ := if x < 0 then -1 else 1

/-- A node of a lane stroke: a position together with a tangent direction
(`LaneStrokeNode` in `lane_stroke.rs`). -/
structure LaneStrokeNode where
  position : P2
  direction : V2
deriving DecidableEq

/-- A lane stroke: an ordered sequence of nodes.  The derived path is queried
only through the abstract geometry capability, so the nodes are the whole
state. -/
structure LaneStroke where
  nodes : List LaneStrokeNode
deriving DecidableEq

/-- Source `LaneStroke::with_single_node`. -/
def LaneStroke.with_single_node (n : LaneStrokeNode) : LaneStroke := ⟨[n]⟩

/-- Reference to a stroke by index (`LaneStrokeRef(usize)`). -/
structure LaneStrokeRef where
  idx : Nat
deriving DecidableEq

/-- Reference to a selectable stroke: either an index into the plan delta's
`new_strokes` or a reference into the committed `BuiltStrokes`. -/
inductive SelectableStrokeRef where
  | New : Nat → SelectableStrokeRef
  | Built : LaneStrokeRef → SelectableStrokeRef
deriving DecidableEq

/-- Source `ContinuationMode`: extend a stroke at its tail or at its head. -/
inductive ContinuationMode where
  | Append
  | Prepend
deriving DecidableEq

/-- The `Intent` tagged union of `intent.rs`. -/
inductive Intent where
  | None
  | NewRoad (points : List P2)
  | ContinueRoad (continue_from : List (LaneStrokeRef × ContinuationMode))
      (additional_points : List P2) (start_reference_point : P2)
  | Select (r : SelectableStrokeRef) (start stop : N)
  | MaximizeSelection
  | MoveSelection (delta : V2)
  | DeleteSelection
  | CreateNextLane
deriving DecidableEq

/-- Association-list lookup modelling `CDict::get` / map lookup. -/
def alookup {K V : Type} [DecidableEq K] (l : List (K × V)) (k : K) : Option V :=
  (l.find? (fun p => p.1 = k)).map (fun p => p.2)

/-- Association-list insert modelling `CDict::insert`: overwrite the value if
the key is present, otherwise push the pair at the end. -/
def dinsert {K V : Type} [DecidableEq K] (l : List (K × V)) (k : K) (v : V) :
    List (K × V) :=
  if l.any (fun p => p.1 = k) then
    l.map (fun p => if p.1 = k then (k, v) else p)
  else
    l ++ [(k, v)]

/-- The plan delta: newly authored strokes plus committed strokes marked for
destruction (`PlanDelta` of `plan.rs`, modelled from its use here). -/
structure PlanDelta where
  new_strokes : List LaneStroke
  strokes_to_destroy : List (LaneStrokeRef × LaneStroke)
deriving DecidableEq

/-- The committed-strokes snapshot (`BuiltStrokes`): a read-only mapping from
committed-stroke references to strokes. -/
structure BuiltStrokes where
  mapping : List (LaneStrokeRef × LaneStroke)
deriving DecidableEq

/-- Selections: a mapping from selectable-stroke references to arc-length
ranges. -/
abbrev Selections := List (SelectableStrokeRef × (N × N))

/-- The plan snapshot (`PlanStep`). -/
structure PlanStep where
  plan_delta : PlanDelta
  selections : Selections
  intent : Intent
deriving DecidableEq

/-- Editor settings (read-only per call). -/
structure Settings where
  n_lanes_per_side : Nat
  create_both_sides : Bool
  select_parallel : Bool
  select_opposite : Bool
deriving DecidableEq

/-- Source `LANE_DISTANCE`. -/
def LANE_DISTANCE : N := 5

/-- Source `CENTER_LANE_DISTANCE`. -/
def CENTER_LANE_DISTANCE : N := 6

/-- The 5-tuple produced by `LaneStroke::with_subsection_moved`: nodes before
the sub-range, optional before-connector, the moved sub-range's nodes,
optional after-connector, nodes after the sub-range.  Modelled from the spec:
the decomposition is produced by the stroke's move-subsection primitive and is
treated as opaque input here. -/
structure MovedTuple where
  before : List LaneStrokeNode
  beforeConnector : Option LaneStrokeNode
  moved : List LaneStrokeNode
  afterConnector : Option LaneStrokeNode
  after : List LaneStrokeNode
deriving DecidableEq

/-- The external geometry capability consumed by `intent.rs`: the `descartes`
curve primitives together with the stroke/path operations of
`lane_stroke.rs`.  Modelled from the spec: these live outside the embedded
source file, so they are abstract operations; each field is named after the
source operation it stands for. -/
structure Geom where
  /-- Source `V2::normalize`. -/
  normalize : V2 → V2
  /-- Source `V2::orthogonal` (a fixed perpendicular of the argument). -/
  orthogonal : V2 → V2
  /-- Source `Segment::arc_with_direction(start, direction, end).end_direction()`. -/
  arcEndDirection : P2 → V2 → P2 → V2
  /-- Source `v.to_basis(basis)`. -/
  toBasis : V2 → V2 → V2
  /-- Source `v.from_basis(basis)`. -/
  fromBasis : V2 → V2 → V2
  /-- Source `P2::is_roughly_within(other, tolerance)`. -/
  roughlyWithinP : P2 → P2 → N → Bool
  /-- Source `V2::is_roughly_within(other, tolerance)` for directions. -/
  roughlyWithinV : V2 → V2 → N → Bool
  /-- Source `descartes::MIN_START_TO_END`, the minimum-segment tolerance. -/
  minStartToEnd : N
  /-- Source `LaneStroke::well_formed`. -/
  wellFormed : LaneStroke → Bool
  /-- Source `stroke.path().length()`. -/
  length : LaneStroke → N
  /-- Source `stroke.path().along(distance)`. -/
  along : LaneStroke → N → P2
  /-- Source `stroke.path().direction_along(distance)`. -/
  directionAlong : LaneStroke → N → V2
  /-- Source `stroke.path().project(point)`: `none` when the projection fails. -/
  project : LaneStroke → P2 → Option N
  /-- Source `stroke.subsection(start, end)`: `none` when the subsection is
  degenerate. -/
  subsection : LaneStroke → N → N → Option LaneStroke
  /-- Source `stroke.with_subsection_moved(start, end, delta)`. -/
  withSubsectionMoved : LaneStroke → N → N → V2 → MovedTuple
  /-- Source `LaneStroke::new(nodes)`: `none` when construction reports an error. -/
  mkStroke : List LaneStrokeNode → Option LaneStroke
  /-- Source `stroke.is_roughly_within(other, tolerance)` for whole strokes. -/
  strokeRoughlyWithin : LaneStroke → LaneStroke → N → Bool

/-- Modelled from the spec: `SelectableStrokeRef::get_stroke` (defined in
`current_plan/mod.rs`, outside the embedded file) resolves a reference against
the current plan delta's `new_strokes` (for `New`) or the committed
`BuiltStrokes` mapping (for `Built`); a dangling reference panics, modelled by
`none`. -/
def get_stroke (r : SelectableStrokeRef) (delta : PlanDelta) (bs : BuiltStrokes) :
    Option LaneStroke :=
  match r with
  | .New i => delta.new_strokes.get? i
  | .Built lr => alookup bs.mapping lr

/-! ## Continuation (`apply_new_road`, `apply_continue_road`) -/

/-- The node a continuation step would insert: read the terminal node (last
for `Append`, first for `Prepend`), derive the new terminal direction from the
arc between the reference points, and transplant the terminal node's offset
into the new direction's basis.  `none` models the `unwrap` / indexing panic
on an empty node list. -/
def continueNode (G : Geom) (prevRef nextRef : P2) (mode : ContinuationMode)
    (stroke : LaneStroke) : Option LaneStrokeNode :=
  match mode with
  | .Append =>
    match stroke.nodes.getLast? with
    | none => none
    | some node =>
      let nextDirection := G.arcEndDirection prevRef node.direction nextRef
      some ⟨vadd nextRef
              (G.fromBasis (G.toBasis (vsub node.position prevRef) node.direction)
                nextDirection),
            nextDirection⟩
  | .Prepend =>
    match stroke.nodes.head? with
    | none => none
    | some node =>
      let nextDirection := vneg (G.arcEndDirection prevRef (vneg node.direction) nextRef)
      some ⟨vadd nextRef
              (G.fromBasis (G.toBasis (vsub node.position prevRef) node.direction)
                nextDirection),
            nextDirection⟩

/-- Inserting the candidate node: push at the tail for `Append`, insert at the
head for `Prepend`. -/
def insertNode (mode : ContinuationMode) (stroke : LaneStroke)
    (node : LaneStrokeNode) : LaneStroke :=
  match mode with
  | .Append => ⟨stroke.nodes ++ [node]⟩
  | .Prepend => ⟨node :: stroke.nodes⟩

/-- One stroke's treatment of one continuation point: insert the candidate
node, then undo the insertion (pop / remove) if the resulting stroke fails the
well-formedness check. -/
def continueOneStroke (G : Geom) (prevRef nextRef : P2) (mode : ContinuationMode)
    (stroke : LaneStroke) : Option LaneStroke :=
  match continueNode G prevRef nextRef mode stroke with
  | none => none
  | some node =>
    let inserted := insertNode mode stroke node
    if G.wellFormed inserted then
      some inserted
    else
      match mode with
      | .Append => some ⟨inserted.nodes.dropLast⟩
      | .Prepend => some ⟨inserted.nodes.drop 1⟩

/-- Processing one surviving continuation point for every entry of
`continue_from`, in order; the stroke at each referenced index is updated in
place.  `none` models an out-of-range index panic. -/
def continuePoint (G : Geom) (prevRef nextRef : P2) :
    List (LaneStrokeRef × ContinuationMode) → List LaneStroke →
    Option (List LaneStroke)
  | [], strokes => some strokes
  | cf :: rest, strokes =>
    match strokes.get? cf.1.idx with
    | none => none
    | some stroke =>
      match continueOneStroke G prevRef nextRef cf.2 stroke with
      | none => none
      | some stroke' => continuePoint G prevRef nextRef rest (strokes.set cf.1.idx stroke')

/-- The main loop of `apply_continue_road`: iterate the additional points,
skipping any point within `MIN_START_TO_END` of the running previous
reference point (leaving the reference point unchanged). -/
def continueRoadLoop (G : Geom)
    (continue_from : List (LaneStrokeRef × ContinuationMode)) :
    List P2 → P2 → List LaneStroke → Option (List LaneStroke)
  | [], _, strokes => some strokes
  | p :: rest, prevRef, strokes =>
    if G.roughlyWithinP p prevRef G.minStartToEnd then
      continueRoadLoop G continue_from rest prevRef strokes
    else
      match continuePoint G prevRef p continue_from strokes with
      | none => none
      | some strokes' => continueRoadLoop G continue_from rest p strokes'

/-- Source `apply_continue_road`: run the continuation loop on the plan delta's
new strokes, return the updated delta with empty selections and intent
`None`. -/
def apply_continue_road (G : Geom)
    (continue_from : List (LaneStrokeRef × ContinuationMode))
    (additional_points : List P2) (start_reference_point : P2)
    (current : PlanStep) : Option PlanStep :=
  match continueRoadLoop G continue_from additional_points start_reference_point
      current.plan_delta.new_strokes with
  | none => none
  | some strokes' =>
    some { plan_delta := { current.plan_delta with new_strokes := strokes' },
           selections := [],
           intent := .None }

/-- The lateral offset of lane `lane_idx` in `apply_new_road`:
`direction.orthogonal() * (CENTER_LANE_DISTANCE / 2 + LANE_DISTANCE * lane_idx)`. -/
def newRoadOffset (G : Geom) (direction : V2) (lane_idx : Nat) : V2 :=
  smulv (CENTER_LANE_DISTANCE / 2 + LANE_DISTANCE * (lane_idx : ℚ)) (G.orthogonal direction)

/-- The one-point strokes `apply_new_road` synthesizes before continuing:
forward-side strokes at increasing lateral offsets, then (when
`create_both_sides`) mirrored strokes with reversed direction. -/
def newRoadStrokes (G : Geom) (p0 : P2) (direction : V2) (settings : Settings) :
    List LaneStroke :=
  ((List.range settings.n_lanes_per_side).map (fun i =>
      LaneStroke.with_single_node ⟨vadd p0 (newRoadOffset G direction i), direction⟩)) ++
  (if settings.create_both_sides then
      (List.range settings.n_lanes_per_side).map (fun i =>
        LaneStroke.with_single_node ⟨vsub p0 (newRoadOffset G direction i), vneg direction⟩)
    else [])

/-- The continuation references `apply_new_road` synthesizes: `Append` for the
forward side, `Prepend` for the mirrored side. -/
def newRoadContinueFrom (base_idx : Nat) (settings : Settings) :
    List (LaneStrokeRef × ContinuationMode) :=
  ((List.range settings.n_lanes_per_side).map (fun i =>
      (LaneStrokeRef.mk (base_idx + i), ContinuationMode.Append))) ++
  (if settings.create_both_sides then
      (List.range settings.n_lanes_per_side).map (fun i =>
        (LaneStrokeRef.mk (base_idx + i + settings.n_lanes_per_side),
         ContinuationMode.Prepend))
    else [])

/-- Source `apply_new_road`: synthesize the one-point strokes, append them to
`new_strokes`, and delegate to `apply_continue_road` with `points[1..]` and
`points[0]` as the start reference.  `none` models the `points[1]` indexing
panic when fewer than two points are given. -/
def apply_new_road (G : Geom) (points : List P2) (current : PlanStep)
    (settings : Settings) : Option PlanStep :=
  match points with
  | p0 :: p1 :: rest =>
    let base_idx := current.plan_delta.new_strokes.length
    let direction := G.normalize (vsub p1 p0)
    let current' : PlanStep :=
      { current with
        plan_delta := { current.plan_delta with
          new_strokes := current.plan_delta.new_strokes ++
            newRoadStrokes G p0 direction settings } }
    apply_continue_road G (newRoadContinueFrom base_idx settings) (p1 :: rest) p0 current'
  | _ => none

/-! ## Selection (`apply_select`, `apply_maximize_selection`) -/

/-- The enumeration of all strokes scanned for parallel selection: the plan
delta's new strokes (as `New` references, in order) followed by the committed
strokes (as `Built` references). -/
def allStrokes (delta : PlanDelta) (bs : BuiltStrokes) :
    List (SelectableStrokeRef × LaneStroke) :=
  (delta.new_strokes.enum.map (fun p => (SelectableStrokeRef.New p.1, p.2))) ++
  (bs.mapping.map (fun p => (SelectableStrokeRef.Built p.1, p.2)))

/-- The candidate test of `apply_select`'s parallel scan for one other stroke:
both endpoint positions must project onto it, the projected points must be
within `60.0` of the originals, and the projected directions must roughly
match the original directions (negated, and only with `select_opposite`, when
the projected arc-lengths come out in swapped order).  On success, the
recorded range is the (min, max) of the two projected arc-lengths. -/
def selectCandidateRange (G : Geom) (settings : Settings)
    (start_position : P2) (start_direction : V2)
    (end_position : P2) (end_direction : V2)
    (other_stroke : LaneStroke) : Option (N × N) :=
  match G.project other_stroke start_position, G.project other_stroke end_position with
  | some start_on_other_distance, some end_on_other_distance =>
    let start_on_other := G.along other_stroke start_on_other_distance
    let start_direction_on_other := G.directionAlong other_stroke start_on_other_distance
    let end_on_other := G.along other_stroke end_on_other_distance
    let end_direction_on_other := G.directionAlong other_stroke end_on_other_distance
    let add_selection :=
      G.roughlyWithinP start_on_other start_position 60 &&
      G.roughlyWithinP end_on_other end_position 60 &&
      (if start_on_other_distance < end_on_other_distance then
        G.roughlyWithinV start_direction_on_other start_direction (1/10) &&
        G.roughlyWithinV end_direction_on_other end_direction (1/10)
      else if settings.select_opposite then
        G.roughlyWithinV start_direction_on_other (vneg start_direction) (1/10) &&
        G.roughlyWithinV end_direction_on_other (vneg end_direction) (1/10)
      else false)
    if add_selection then
      some (min start_on_other_distance end_on_other_distance,
            max end_on_other_distance start_on_other_distance)
    else none
  | _, _ => none

/-- The additional selections `apply_select` collects during the parallel
scan: every stroke other than the clicked one that passes
`selectCandidateRange`. -/
def selectAdditional (G : Geom) (settings : Settings) (delta : PlanDelta)
    (bs : BuiltStrokes) (selection_ref : SelectableStrokeRef)
    (start_position : P2) (start_direction : V2)
    (end_position : P2) (end_direction : V2) :
    List (SelectableStrokeRef × (N × N)) :=
  (allStrokes delta bs).filterMap (fun p =>
    if p.1 ≠ selection_ref then
      (selectCandidateRange G settings start_position start_direction
        end_position end_direction p.2).map (fun rng => (p.1, rng))
    else none)

/-- Source `apply_select`: record the clicked range, and under `select_parallel`
additionally insert every accepted parallel candidate; the result keeps the
plan delta and resets the intent to `None`. -/
def apply_select (G : Geom) (selection_ref : SelectableStrokeRef)
    (start stop : N) (current : PlanStep) (still_built_strokes : BuiltStrokes)
    (settings : Settings) : Option PlanStep :=
  let new_selections := dinsert current.selections selection_ref (start, stop)
  if settings.select_parallel then
    match get_stroke selection_ref current.plan_delta still_built_strokes with
    | none => none
    | some stroke =>
      let start_position := G.along stroke start
      let start_direction := G.directionAlong stroke start
      let end_position := G.along stroke stop
      let end_direction := G.directionAlong stroke stop
      let additional_selections :=
        selectAdditional G settings current.plan_delta still_built_strokes
          selection_ref start_position start_direction end_position end_direction
      some { current with
             selections := additional_selections.foldl
               (fun sels p => dinsert sels p.1 p.2) new_selections,
             intent := .None }
  else
    some { current with selections := new_selections, intent := .None }

/-- The mapping step of `apply_maximize_selection`: every selected reference
is re-resolved and mapped to the range `(0, length of its current path)`. -/
def maximizeSelections (G : Geom) (delta : PlanDelta) (bs : BuiltStrokes) :
    Selections → Option Selections
  | [] => some []
  | (r, _) :: rest =>
    match get_stroke r delta bs with
    | none => none
    | some stroke =>
      match maximizeSelections G delta bs rest with
      | none => none
      | some rest' => some ((r, ((0 : ℚ), G.length stroke)) :: rest')

/-- Source `apply_maximize_selection`: replace every selection's range with
`(0, length)`; everything else of the snapshot (plan delta and intent) is kept
unchanged. -/
def apply_maximize_selection (G : Geom) (current : PlanStep)
    (still_built_strokes : BuiltStrokes) : Option PlanStep :=
  match maximizeSelections G current.plan_delta still_built_strokes
      current.selections with
  | none => none
  | some new_selections => some { current with selections := new_selections }

/-! ## Move selection (`apply_move_selection`) -/

/-- Which connector of a moved tuple an alignment constraint addresses
(the local `enum C { Before, After }`). -/
inductive Conn where
  | Before
  | After
deriving DecidableEq

/-- An alignment constraint `((ref, connector), (target_ref, target_connector))`. -/
abbrev Align := (SelectableStrokeRef × Conn) × (SelectableStrokeRef × Conn)

/-- The per-selection moved 5-tuples: each selected reference is resolved and
decomposed by `with_subsection_moved`. -/
def movedTuples (G : Geom) (delta_v : V2) (current : PlanStep)
    (bs : BuiltStrokes) : Selections → Option (List (SelectableStrokeRef × MovedTuple))
  | [] => some []
  | (r, se) :: rest =>
    match get_stroke r current.plan_delta bs with
    | none => none
    | some stroke =>
      match movedTuples G delta_v current bs rest with
      | none => none
      | some rest' => some ((r, G.withSubsectionMoved stroke se.1 se.2 delta_v) :: rest')

/-- Source `a_close_and_right_of_b`: both nodes exist, are within `7.0` of each
other, and the vector from `b` to `a` has positive component along `a`'s
direction's orthogonal. -/
def a_close_and_right_of_b (G : Geom) :
    Option LaneStrokeNode → Option LaneStrokeNode → Bool
  | some node_a, some node_b =>
    G.roughlyWithinP node_a.position node_b.position 7 &&
    decide (dotv (vsub node_a.position node_b.position)
      (G.orthogonal node_a.direction) > 0)
  | _, _ => false

/-- The four proximity checks for one ordered pair of distinct selections,
each appending an alignment constraint; the mixed Before/After checks are
de-duplicated against the mirror constraint already recorded. -/
def alignmentsForPair (G : Geom) (acc : List Align)
    (ra : SelectableStrokeRef) (ta : MovedTuple)
    (rb : SelectableStrokeRef) (tb : MovedTuple) : List Align :=
  let acc1 :=
    if a_close_and_right_of_b G ta.moved.head? tb.moved.head? &&
        ta.beforeConnector.isSome && tb.beforeConnector.isSome then
      acc ++ [((ra, Conn.Before), (rb, Conn.Before))]
    else acc
  let acc2 :=
    if a_close_and_right_of_b G ta.moved.head? tb.moved.getLast? &&
        ta.beforeConnector.isSome && tb.afterConnector.isSome &&
        !(acc1.contains ((rb, Conn.After), (ra, Conn.Before))) then
      acc1 ++ [((ra, Conn.Before), (rb, Conn.After))]
    else acc1
  let acc3 :=
    if a_close_and_right_of_b G ta.moved.getLast? tb.moved.getLast? &&
        ta.afterConnector.isSome && tb.afterConnector.isSome then
      acc2 ++ [((ra, Conn.After), (rb, Conn.After))]
    else acc2
  if a_close_and_right_of_b G ta.moved.getLast? tb.moved.head? &&
      ta.afterConnector.isSome && tb.beforeConnector.isSome &&
      !(acc3.contains ((rb, Conn.Before), (ra, Conn.After))) then
    acc3 ++ [((ra, Conn.After), (rb, Conn.Before))]
  else acc3

/-- All alignment constraints: fold the pair checks over the cartesian product
of the moved tuples with themselves, skipping pairs with equal references.
(The source iterates a hash map here; the iteration order is modelled as the
selection insertion order.) -/
def connectorAlignments (G : Geom)
    (tuples : List (SelectableStrokeRef × MovedTuple)) : List Align :=
  ((tuples.flatMap (fun a => tuples.map (fun b => (a, b)))).filter
      (fun p => p.1.1 ≠ p.2.1)).foldl
    (fun acc p => alignmentsForPair G acc p.1.1 p.1.2 p.2.1 p.2.2) []

/-- For index `i`, the index the source's reordering pass would swap with: the
first index whose constraint's source equals `i`'s target, provided it lies
strictly after `i`. -/
def swapIndexFor (l : List Align) (i : Nat) : Option Nat :=
  match l.get? i with
  | none => none
  | some ai =>
    match l.findIdx? (fun b => b.1 = ai.2) with
    | none => none
    | some j => if i < j then some j else none

/-- The first swap the source's scan would perform: the least `i` with a
matching later index. -/
def findFirstSwap (l : List Align) : Option (Nat × Nat) :=
  (List.range l.length).findSome? (fun i => (swapIndexFor l i).map (fun j => (i, j)))

/-- Swap two positions of a list. -/
def swapList (l : List Align) (i j : Nat) : List Align :=
  match l.get? i, l.get? j with
  | some li, some lj => (l.set i lj).set j li
  | _, _ => l

/-- The source's fixed-point reordering loop ("bubble-sort-style topological
ordering").  The source loop has no termination guard (a cyclic constraint set
loops forever); the model bounds the run with fuel and returns `none` on
exhaustion, modelling divergence. -/
def sortAlignments : Nat → List Align → Option (List Align)
  | 0, _ => none
  | fuel + 1, l =>
    match findFirstSwap l with
    | none => some l
    | some (i, j) => sortAlignments fuel (swapList l i j)

/-- Fuel used for `sortAlignments`. -/
def sortFuel (n : Nat) : Nat := n * n + 1

/-- Update one connector of the tuple recorded for `r`. -/
def setConnector (tuples : List (SelectableStrokeRef × MovedTuple))
    (r : SelectableStrokeRef) (c : Conn) (node : LaneStrokeNode) :
    List (SelectableStrokeRef × MovedTuple) :=
  tuples.map (fun p =>
    if p.1 = r then
      (p.1, match c with
        | Conn.Before => { p.2 with beforeConnector := some node }
        | Conn.After => { p.2 with afterConnector := some node })
    else p)

/-- Apply one alignment constraint: flip the aligned connector's direction to
(sign-matched) the target's, then place it at lane distance (`6.0` when
opposing, `5.0` when aligned) along its own new orthogonal from the target's
position.  `none` models the map-index / `unwrap` panics on missing entries or
connectors. -/
def applyOneAlignment (G : Geom)
    (tuples : List (SelectableStrokeRef × MovedTuple)) (al : Align) :
    Option (List (SelectableStrokeRef × MovedTuple)) :=
  match alookup tuples al.2.1 with
  | none => none
  | some targetTuple =>
    match (match al.2.2 with
           | Conn.Before => targetTuple.beforeConnector
           | Conn.After => targetTuple.afterConnector) with
    | none => none
    | some align_to =>
      match alookup tuples al.1.1 with
      | none => none
      | some srcTuple =>
        match (match al.1.2 with
               | Conn.Before => srcTuple.beforeConnector
               | Conn.After => srcTuple.afterConnector) with
        | none => none
        | some align =>
          let direction_sign := signumq (dotv align.direction align_to.direction)
          let newDirection := smulv direction_sign align_to.direction
          let distance : ℚ := if direction_sign < 0 then 6 else 5
          let newPosition :=
            vadd align_to.position (smulv distance (G.orthogonal newDirection))
          some (setConnector tuples al.1.1 al.1.2 ⟨newPosition, newDirection⟩)

/-- Apply a list of alignment constraints in order. -/
def applyAlignments (G : Geom) :
    List Align → List (SelectableStrokeRef × MovedTuple) →
    Option (List (SelectableStrokeRef × MovedTuple))
  | [], tuples => some tuples
  | al :: rest, tuples =>
    match applyOneAlignment G tuples al with
    | none => none
    | some tuples' => applyAlignments G rest tuples'

/-- The moved tuples after connector reconciliation: decompose every
selection, collect and order the alignment constraints, and apply them. -/
def alignedTuples (G : Geom) (delta_v : V2) (current : PlanStep)
    (bs : BuiltStrokes) : Option (List (SelectableStrokeRef × MovedTuple)) :=
  match movedTuples G delta_v current bs current.selections with
  | none => none
  | some tuples =>
    let aligns := connectorAlignments G tuples
    match (if aligns.length > 1 then sortAlignments (sortFuel aligns.length) aligns
           else some aligns) with
    | none => none
    | some sorted => applyAlignments G sorted tuples

/-- The node sequence a moved tuple is reassembled into:
before-nodes, before-connector, moved range, after-connector, after-nodes. -/
def assembleNodes (t : MovedTuple) : List LaneStrokeNode :=
  t.before ++ t.beforeConnector.toList ++ t.moved ++ t.afterConnector.toList ++ t.after

/-- Integration of one reconciled selection into the accumulated
`(plan delta, selections)`: rebuild the stroke (a construction failure drops
the selection silently), re-project the moved range's endpoints (`unwrap`:
failure panics, modelled by `none`), then either replace the `New` stroke in
place or record the `Built` original for destruction and append the rebuilt
stroke under a fresh `New` reference. -/
def integrateOne (G : Geom) (bs : BuiltStrokes)
    (acc : PlanDelta × Selections) (entry : SelectableStrokeRef × MovedTuple) :
    Option (PlanDelta × Selections) :=
  match G.mkStroke (assembleNodes entry.2) with
  | none => some acc
  | some new_stroke =>
    match entry.2.moved.head? with
    | none => none
    | some s0 =>
      match entry.2.moved.getLast? with
      | none => none
      | some slast =>
        match G.project new_stroke s0.position with
        | none => none
        | some new_selection_start =>
          match G.project new_stroke slast.position with
          | none => none
          | some new_selection_stop =>
            match entry.1 with
            | .New stroke_idx =>
              if stroke_idx < acc.1.new_strokes.length then
                some ({ acc.1 with
                        new_strokes := acc.1.new_strokes.set stroke_idx new_stroke },
                      dinsert acc.2 (.New stroke_idx)
                        (new_selection_start, new_selection_stop))
              else none
            | .Built old_ref =>
              match alookup bs.mapping old_ref with
              | none => none
              | some old_stroke =>
                some ({ acc.1 with
                        strokes_to_destroy :=
                          dinsert acc.1.strokes_to_destroy old_ref old_stroke,
                        new_strokes := acc.1.new_strokes ++ [new_stroke] },
                      dinsert acc.2 (.New acc.1.new_strokes.length)
                        (new_selection_start, new_selection_stop))

/-- Integrate all reconciled selections in order. -/
def integrateAll (G : Geom) (bs : BuiltStrokes) :
    List (SelectableStrokeRef × MovedTuple) → PlanDelta × Selections →
    Option (PlanDelta × Selections)
  | [], acc => some acc
  | entry :: rest, acc =>
    match integrateOne G bs acc entry with
    | none => none
    | some acc' => integrateAll G bs rest acc'

/-- Source `apply_move_selection`: reconcile the moved selections and integrate them;
the result keeps everything else of the snapshot — in particular the intent —
unchanged. -/
def apply_move_selection (G : Geom) (delta_v : V2) (current : PlanStep)
    (bs : BuiltStrokes) : Option PlanStep :=
  match alignedTuples G delta_v current bs with
  | none => none
  | some aligned =>
    match integrateAll G bs aligned (current.plan_delta, ([] : Selections)) with
    | none => none
    | some res =>
      some { current with plan_delta := res.1, selections := res.2 }

/-! ## Delete selection and next lane -/

/-- The split fragments `apply_delete_selection` collects: for every selection
the sub-path before `start` and the sub-path after `end`, each kept only when
the subsection exists. -/
def deleteFragments (G : Geom) (delta : PlanDelta) (bs : BuiltStrokes) :
    Selections → Option (List LaneStroke)
  | [] => some []
  | (r, se) :: rest =>
    match get_stroke r delta bs with
    | none => none
    | some stroke =>
      match deleteFragments G delta bs rest with
      | none => none
      | some rest' =>
        let frags :=
          (match G.subsection stroke 0 se.1 with
           | some before => [before]
           | none => []) ++
          (match G.subsection stroke se.2 (G.length stroke) with
           | some after => [after]
           | none => [])
        some (frags ++ rest')

/-- Source `apply_delete_selection`: collect the fragments, remove the collected
new-stroke indices (the source never adds any index to this collection, so
the removal loop is vacuous — the original strokes stay in place), append the
fragments, and return with empty selections and intent `None`. -/
def apply_delete_selection (G : Geom) (current : PlanStep)
    (still_built_strokes : BuiltStrokes) : Option PlanStep :=
  match deleteFragments G current.plan_delta still_built_strokes
      current.selections with
  | none => none
  | some new_strokes =>
    let new_stroke_indices_to_remove : List Nat := []
    let pruned :=
      ((new_stroke_indices_to_remove.insertionSort (fun a b => a ≤ b)).reverse).foldl
        (fun l i => l.eraseIdx i) current.plan_delta.new_strokes
    some { plan_delta := { current.plan_delta with
             new_strokes := pruned ++ new_strokes },
           selections := [],
           intent := .None }

/-- The subsections of the current selections used by
`apply_create_next_lane` (degenerate subsections are filtered out). -/
def selectedSubsections (G : Geom) (delta : PlanDelta) (bs : BuiltStrokes) :
    Selections → Option (List LaneStroke)
  | [] => some []
  | (r, se) :: rest =>
    match get_stroke r delta bs with
    | none => none
    | some stroke =>
      match selectedSubsections G delta bs rest with
      | none => none
      | some rest' =>
        match G.subsection stroke se.1 se.2 with
        | some sub => some (sub :: rest')
        | none => some rest'

/-- Source `apply_create_next_lane`: offset every selected subsection laterally by
`LANE_DISTANCE`, drop candidates that roughly coincide with a selected
subsection, and append the survivors to `new_strokes`. -/
def apply_create_next_lane (G : Geom) (current : PlanStep)
    (still_built_strokes : BuiltStrokes) : Option PlanStep :=
  match selectedSubsections G current.plan_delta still_built_strokes
      current.selections with
  | none => none
  | some selected_subsections =>
    let next_lane_strokes :=
      (selected_subsections.filterMap (fun stroke =>
        G.mkStroke (stroke.nodes.map (fun node =>
          ⟨vadd node.position (smulv LANE_DISTANCE (G.orthogonal node.direction)),
           node.direction⟩)))).filter (fun stroke =>
        !(selected_subsections.any (fun sub => G.strokeRoughlyWithin stroke sub (1/10))))
    some { plan_delta := { current.plan_delta with
             new_strokes := current.plan_delta.new_strokes ++ next_lane_strokes },
           selections := [],
           intent := .None }

/-! ## Dispatcher (`apply_intent`) -/

/-- How `apply_intent` fails: the `expect("still built strokes needed")`
precondition violation, or a panic inside a handler. -/
inductive ApplyError where
  | missingBuiltStrokes
  | handlerPanic
deriving DecidableEq

/-- Lift a handler result, turning a handler panic into `handlerPanic`. -/
def liftPanic : Option PlanStep → Except ApplyError PlanStep
  | some step => .ok step
  | none => .error .handlerPanic

/-- Whether an intent variant forces evaluation of `still_built_strokes()`
(every variant except `None`, `NewRoad` and `ContinueRoad`). -/
def needsBuiltStrokes : Intent → Bool
  | .Select _ _ _ => true
  | .MaximizeSelection => true
  | .MoveSelection _ => true
  | .DeleteSelection => true
  | .CreateNextLane => true
  | _ => false

/-- Source `apply_intent`: dispatch on the current intent.  For the five
committed-strokes-dependent variants the absent snapshot triggers the
`expect` failure before the handler runs. -/
def apply_intent (G : Geom) (current : PlanStep)
    (maybe_still_built_strokes : Option BuiltStrokes) (settings : Settings) :
    Except ApplyError PlanStep :=
  match current.intent with
  | .None => .ok current
  | .NewRoad points => liftPanic (apply_new_road G points current settings)
  | .ContinueRoad continue_from additional_points start_reference_point =>
    liftPanic (apply_continue_road G continue_from additional_points
      start_reference_point current)
  | .Select selection_ref start stop =>
    match maybe_still_built_strokes with
    | none => .error .missingBuiltStrokes
    | some bs => liftPanic (apply_select G selection_ref start stop current bs settings)
  | .MaximizeSelection =>
    match maybe_still_built_strokes with
    | none => .error .missingBuiltStrokes
    | some bs => liftPanic (apply_maximize_selection G current bs)
  | .MoveSelection delta_v =>
    match maybe_still_built_strokes with
    | none => .error .missingBuiltStrokes
    | some bs => liftPanic (apply_move_selection G delta_v current bs)
  | .DeleteSelection =>
    match maybe_still_built_strokes with
    | none => .error .missingBuiltStrokes
    | some bs => liftPanic (apply_delete_selection G current bs)
  | .CreateNextLane =>
    match maybe_still_built_strokes with
    | none => .error .missingBuiltStrokes
    | some bs => liftPanic (apply_create_next_lane G current bs)

/-- Which intent variants carry their intent through unchanged (all others
reset it to `None`). -/
def preservesIntent : Intent → Bool
  | .MaximizeSelection => true
  | .MoveSelection _ => true
  | _ => false

/-- The per-stroke condition the spec states for accepting a parallel
candidate, written from the spec's words (for comparison against
`selectCandidateRange`): both projections succeed, both projected points are
within 60 units, the directions roughly match in projected order (negated and
gated by `select_opposite` in swapped order), and the recorded range is the
(min, max) of the projected arc-lengths. -/
def specCandidateCondition (G : Geom) (settings : Settings)
    (start_position : P2) (start_direction : V2)
    (end_position : P2) (end_direction : V2)
    (os : LaneStroke) (rng : N × N) : Prop :=
  ∃ sd ed, G.project os start_position = some sd ∧ G.project os end_position = some ed ∧
    G.roughlyWithinP (G.along os sd) start_position 60 = true ∧
    G.roughlyWithinP (G.along os ed) end_position 60 = true ∧
    ((sd < ed ∧
        G.roughlyWithinV (G.directionAlong os sd) start_direction (1/10) = true ∧
        G.roughlyWithinV (G.directionAlong os ed) end_direction (1/10) = true) ∨
     (¬ sd < ed ∧ settings.select_opposite = true ∧
        G.roughlyWithinV (G.directionAlong os sd) (vneg start_direction) (1/10) = true ∧
        G.roughlyWithinV (G.directionAlong os ed) (vneg end_direction) (1/10) = true)) ∧
    rng = (min sd ed, max sd ed)

/-! ## Concrete fixtures used by witnesses and counterexamples -/

/-- A concrete node. -/
def n0 : LaneStrokeNode := ⟨(0, 0), (1, 0)⟩

/-- A concrete one-node stroke. -/
def stroke1 : LaneStroke := ⟨[n0]⟩

/-- An empty snapshot with no pending intent. -/
def step0 : PlanStep := ⟨⟨[], []⟩, [], .None⟩

/-- An empty committed-strokes snapshot. -/
def bs0 : BuiltStrokes := ⟨[]⟩

/-- A committed-strokes snapshot holding one stroke. -/
def bs1 : BuiltStrokes := ⟨[(⟨0⟩, stroke1)]⟩

/-- Concrete settings: two lanes per side, one-sided, no parallel
selection. -/
def settings0 : Settings := ⟨2, false, false, false⟩

/-- A concrete geometry instance: identity-like curve operations, projections
always failing, well-formedness always passing, move decomposition placing
all nodes in the moved range. -/
def G0 : Geom where
  normalize := fun v => v
  orthogonal := fun v => (-v.2, v.1)
  arcEndDirection := fun _ d _ => d
  toBasis := fun v _ => v
  fromBasis := fun v _ => v
  roughlyWithinP := fun _ _ _ => false
  roughlyWithinV := fun _ _ _ => false
  minStartToEnd := 1
  wellFormed := fun _ => true
  length := fun _ => 0
  along := fun _ _ => (0, 0)
  directionAlong := fun _ _ => (0, 0)
  project := fun _ _ => none
  subsection := fun _ _ _ => none
  withSubsectionMoved := fun s _ _ _ => ⟨[], none, s.nodes, none, []⟩
  mkStroke := fun l => some ⟨l⟩
  strokeRoughlyWithin := fun _ _ _ => false

/-- A geometry whose well-formedness check always fails (used to exercise the
continuation rollback). -/
def Gwf : Geom := { G0 with wellFormed := fun _ => false }

/-- A geometry whose position tolerance check always passes (used to exercise
the continuation skip). -/
def Gnear : Geom := { G0 with roughlyWithinP := fun _ _ _ => true }

/-- A geometry with total subsections and a fixed positive path length (used
to exercise delete-selection). -/
def Gdel : Geom := { G0 with subsection := fun s _ _ => some s, length := fun _ => 10 }

/-- A geometry whose projections always succeed at arc-length `0` (used to
exercise move-selection integration). -/
def Gmv : Geom := { G0 with project := fun _ _ => some 0 }

/-- A snapshot with one committed-stroke selection and a pending
`MaximizeSelection` intent. -/
def stepSel : PlanStep := ⟨⟨[], []⟩, [(.Built ⟨0⟩, (1, 2))], .MaximizeSelection⟩

/-- A snapshot with one committed-stroke selection and a pending
`MoveSelection` intent. -/
def stepMove : PlanStep := ⟨⟨[], []⟩, [(.Built ⟨0⟩, (0, 1))], .MoveSelection (1, 0)⟩

/-- A snapshot whose pending `NewRoad` intent carries no points. -/
def stepNewRoadEmpty : PlanStep := ⟨⟨[], []⟩, [], .NewRoad []⟩

/-- A snapshot with one new-stroke selection strictly inside the stroke, and
a pending `DeleteSelection` intent. -/
def stepDel : PlanStep := ⟨⟨[stroke1], []⟩, [(.New 0, (2, 5))], .DeleteSelection⟩

/-- The snapshot `apply_intent` produces from `stepSel` (selection maximized
to `(0, 0)` under `G0`'s zero-length paths). -/
def stepSelOut : PlanStep := ⟨⟨[], []⟩, [(.Built ⟨0⟩, (0, 0))], .MaximizeSelection⟩

/-- The moved tuple `G0`/`Gmv` produce for `stroke1`. -/
def tMove : MovedTuple := ⟨[], none, [n0], none, []⟩

/-- A plan delta holding one new stroke. -/
def delta0 : PlanDelta := ⟨[stroke1], []⟩

/-- The snapshot `apply_move_selection Gmv` produces from `stepMove`. -/
def stepMoveOut : PlanStep :=
  ⟨⟨[stroke1], [(⟨0⟩, stroke1)]⟩, [(.New 0, (0, 0))], .MoveSelection (1, 0)⟩

/-- A second concrete one-node stroke. -/
def stroke2 : LaneStroke := ⟨[⟨(3, 0), (1, 0)⟩]⟩

/-- A plan delta holding two new strokes. -/
def delta2 : PlanDelta := ⟨[stroke1, stroke2], []⟩

/-- A geometry whose projections return the queried point's first coordinate
and whose tolerance checks always pass (used to exercise parallel
selection). -/
def Gsel : Geom :=
  { G0 with
    project := fun _ p => some p.1
    roughlyWithinP := fun _ _ _ => true
    roughlyWithinV := fun _ _ _ => true }

/-- The node the continuation step computes for `stroke1` between reference
points `(0,0)` and `(10,0)` under `Gwf` (left unevaluated). -/
def cwNode : LaneStrokeNode :=
  ⟨vadd (10, 0)
      (Gwf.fromBasis (Gwf.toBasis (vsub n0.position (0, 0)) n0.direction)
        (Gwf.arcEndDirection (0, 0) n0.direction (10, 0))),
    Gwf.arcEndDirection (0, 0) n0.direction (10, 0)⟩

/-! ## Helper lemmas -/

lemma liftPanic_eq_ok (o : Option PlanStep) (s : PlanStep) :
    liftPanic o = Except.ok s ↔ o = some s := by
  cases o <;> simp [liftPanic]

lemma liftPanic_ne_missing (o : Option PlanStep) :
    ¬ liftPanic o = Except.error ApplyError.missingBuiltStrokes := by
  cases o <;> simp [liftPanic]

lemma mem_dinsert {K V : Type} [DecidableEq K] (l : List (K × V)) (k : K) (v : V)
    (e : K × V) (h : e ∈ dinsert l k v) : e ∈ l ∨ e = (k, v) := by
  unfold dinsert at h
  split at h
  · rcases List.mem_map.1 h with ⟨p, hp, hpe⟩
    by_cases hk : p.1 = k
    · right
      rw [if_pos hk] at hpe
      exact hpe.symm
    · left
      rw [if_neg hk] at hpe
      exact hpe ▸ hp
  · rcases List.mem_append.1 h with h' | h'
    · exact Or.inl h'
    · exact Or.inr (List.mem_singleton.1 h')

lemma apply_continue_road_some (G : Geom)
    (cf : List (LaneStrokeRef × ContinuationMode)) (pts : List P2) (sr : P2)
    (current : PlanStep) (step' : PlanStep)
    (h : apply_continue_road G cf pts sr current = some step') :
    step'.selections = [] ∧ step'.intent = Intent.None ∧
    step'.plan_delta.strokes_to_destroy = current.plan_delta.strokes_to_destroy := by
  unfold apply_continue_road at h
  split at h
  · exact Option.noConfusion h
  · rw [Option.some.injEq] at h
    subst h
    exact ⟨rfl, rfl, rfl⟩

lemma apply_new_road_some (G : Geom) (pts : List P2) (current : PlanStep)
    (settings : Settings) (step' : PlanStep)
    (h : apply_new_road G pts current settings = some step') :
    step'.intent = Intent.None := by
  unfold apply_new_road at h
  split at h
  · exact (apply_continue_road_some G _ _ _ _ _ h).2.1
  · exact Option.noConfusion h

lemma apply_select_some (G : Geom) (sref : SelectableStrokeRef) (a b : N)
    (current : PlanStep) (bs : BuiltStrokes) (settings : Settings) (step' : PlanStep)
    (h : apply_select G sref a b current bs settings = some step') :
    step'.intent = Intent.None := by
  unfold apply_select at h
  split at h
  · split at h
    · exact Option.noConfusion h
    · rw [Option.some.injEq] at h
      subst h
      rfl
  · rw [Option.some.injEq] at h
    subst h
    rfl

lemma apply_maximize_selection_some (G : Geom) (current : PlanStep)
    (bs : BuiltStrokes) (step' : PlanStep)
    (h : apply_maximize_selection G current bs = some step') :
    step'.intent = current.intent ∧ step'.plan_delta = current.plan_delta := by
  unfold apply_maximize_selection at h
  split at h
  · exact Option.noConfusion h
  · rw [Option.some.injEq] at h
    subst h
    exact ⟨rfl, rfl⟩

lemma apply_move_selection_some (G : Geom) (dv : V2) (current : PlanStep)
    (bs : BuiltStrokes) (step' : PlanStep)
    (h : apply_move_selection G dv current bs = some step') :
    step'.intent = current.intent := by
  unfold apply_move_selection at h
  split at h
  · exact Option.noConfusion h
  · split at h
    · exact Option.noConfusion h
    · rw [Option.some.injEq] at h
      subst h
      rfl

lemma apply_delete_selection_some (G : Geom) (current : PlanStep)
    (bs : BuiltStrokes) (step' : PlanStep)
    (h : apply_delete_selection G current bs = some step') :
    step'.intent = Intent.None := by
  unfold apply_delete_selection at h
  split at h
  · exact Option.noConfusion h
  · rw [Option.some.injEq] at h
    subst h
    rfl

lemma apply_create_next_lane_some (G : Geom) (current : PlanStep)
    (bs : BuiltStrokes) (step' : PlanStep)
    (h : apply_create_next_lane G current bs = some step') :
    step'.intent = Intent.None := by
  unfold apply_create_next_lane at h
  split at h
  · exact Option.noConfusion h
  · rw [Option.some.injEq] at h
    subst h
    rfl

lemma continueRoadLoop_all_skip (G : Geom)
    (cf : List (LaneStrokeRef × ContinuationMode)) :
    ∀ (pts : List P2) (start : P2) (strokes : List LaneStroke),
    (∀ p ∈ pts, G.roughlyWithinP p start G.minStartToEnd = true) →
    continueRoadLoop G cf pts start strokes = some strokes := by
  intro pts
  induction pts with
  | nil => intro start strokes _; rfl
  | cons p rest ih =>
    intro start strokes h
    have hp : G.roughlyWithinP p start G.minStartToEnd = true := h p (by simp)
    rw [continueRoadLoop, if_pos hp]
    exact ih start strokes (fun q hq => h q (by simp [hq]))

lemma maximizeSelections_spec (G : Geom) (delta : PlanDelta) (bs : BuiltStrokes) :
    ∀ (sels new_sels : Selections),
    maximizeSelections G delta bs sels = some new_sels →
    new_sels.map Prod.fst = sels.map Prod.fst ∧
    (∀ e ∈ new_sels, ∃ stroke, get_stroke e.1 delta bs = some stroke ∧
      e.2 = ((0 : ℚ), G.length stroke)) := by
  intro sels
  induction sels with
  | nil =>
    intro ns h
    rw [maximizeSelections, Option.some.injEq] at h
    subst h
    simp
  | cons rv rest ih =>
    intro ns h
    obtain ⟨r, v⟩ := rv
    rw [maximizeSelections] at h
    split at h
    · exact Option.noConfusion h
    · rename_i stroke hst
      split at h
      · exact Option.noConfusion h
      · rename_i rest' hrest
        rw [Option.some.injEq] at h
        subst h
        obtain ⟨hkeys, hvals⟩ := ih rest' hrest
        refine ⟨by simp [hkeys], ?_⟩
        intro e he
        rcases List.mem_cons.1 he with he | he
        · subst he
          exact ⟨stroke, hst, rfl⟩
        · exact hvals e he

lemma maximizeSelections_idem (G : Geom) (delta : PlanDelta) (bs : BuiltStrokes) :
    ∀ (sels new_sels : Selections),
    maximizeSelections G delta bs sels = some new_sels →
    maximizeSelections G delta bs new_sels = some new_sels := by
  intro sels
  induction sels with
  | nil =>
    intro ns h
    rw [maximizeSelections, Option.some.injEq] at h
    subst h
    rfl
  | cons rv rest ih =>
    intro ns h
    obtain ⟨r, v⟩ := rv
    rw [maximizeSelections] at h
    split at h
    · exact Option.noConfusion h
    · rename_i stroke hst
      split at h
      · exact Option.noConfusion h
      · rename_i rest' hrest
        rw [Option.some.injEq] at h
        subst h
        rw [maximizeSelections, hst, ih rest' hrest]

/-! ## Claim theorems -/

/-- Claim C3 (counterexample): the claimed equivalence "apply panics iff the
intent is committed-strokes-dependent and `committed` is absent" fails: with
intent `NewRoad([])` (not committed-dependent) and a committed snapshot
present, `apply` still panics — the `points[1]` access is out of bounds. -/
theorem claim_C3_counterexample :
    apply_intent G0 stepNewRoadEmpty (some bs0) settings0 =
      Except.error ApplyError.handlerPanic ∧
    ¬(needsBuiltStrokes stepNewRoadEmpty.intent = true ∧
      (some bs0 : Option BuiltStrokes) = none) := by
  constructor
  · rfl
  · intro h
    exact Option.noConfusion h.2

/-- Claim C3 (amended): `apply` fails with the committed-strokes precondition
panic (`expect("still built strokes needed")`) if and only if the current
intent is one of the committed-strokes-dependent variants (`Select`,
`MaximizeSelection`, `MoveSelection`, `DeleteSelection`, `CreateNextLane`)
and `committed` is absent; in particular for `None`, `NewRoad` and
`ContinueRoad` the absence of `committed` never causes this failure (handlers
may still panic for unrelated reasons, e.g. too few points). -/
theorem claim_C3_amended (G : Geom) (current : PlanStep)
    (mbs : Option BuiltStrokes) (settings : Settings) :
    apply_intent G current mbs settings =
        Except.error ApplyError.missingBuiltStrokes ↔
      (needsBuiltStrokes current.intent = true ∧ mbs = none) := by
  cases hI : current.intent <;> cases mbs <;>
    simp [apply_intent, hI, needsBuiltStrokes, liftPanic_ne_missing]

/-- Claim C4: during continuation, a candidate node whose insertion makes the
stroke fail the well-formedness check is removed again, leaving the stroke
with exactly the node sequence it had before; and processing a continuation
point leaves every stroke index not referenced by `continue_from`
unchanged. -/
theorem claim_C4 (G : Geom) (prevRef nextRef : P2) :
    (∀ (mode : ContinuationMode) (stroke : LaneStroke) (node : LaneStrokeNode),
      continueNode G prevRef nextRef mode stroke = some node →
      G.wellFormed (insertNode mode stroke node) = false →
      continueOneStroke G prevRef nextRef mode stroke = some stroke) ∧
    (∀ (continue_from : List (LaneStrokeRef × ContinuationMode))
      (strokes strokes' : List LaneStroke) (j : Nat),
      continuePoint G prevRef nextRef continue_from strokes = some strokes' →
      (∀ cf ∈ continue_from, cf.1.idx ≠ j) →
      strokes'.get? j = strokes.get? j) := by
  constructor
  · intro mode stroke node h hwf
    cases mode with
    | Append =>
      rw [continueOneStroke, h]
      simp only [hwf, Bool.false_eq_true, if_false]
      rw [Option.some.injEq]
      show LaneStroke.mk (stroke.nodes ++ [node]).dropLast = stroke
      rw [List.dropLast_concat]
    | Prepend =>
      rw [continueOneStroke, h]
      simp only [hwf, Bool.false_eq_true, if_false]
      rfl
  · intro continue_from
    induction continue_from with
    | nil =>
      intro strokes strokes' j h _
      rw [continuePoint, Option.some.injEq] at h
      rw [h]
    | cons cf rest ih =>
      intro strokes strokes' j h hne
      rw [continuePoint] at h
      split at h
      · exact Option.noConfusion h
      · split at h
        · exact Option.noConfusion h
        · have hj : cf.1.idx ≠ j := hne cf (by simp)
          have hrest := ih _ strokes' j h (fun c hc => hne c (by simp [hc]))
          rw [hrest, List.get?_eq_getElem?, List.get?_eq_getElem?,
            List.getElem?_set_ne hj]

/-- Claim C6: a continuation point within `MIN_START_TO_END` of the running
previous reference point is skipped with no change to any stroke and no
update of the reference point; when every additional point is within the
tolerance of the start reference point, the returned snapshot keeps the plan
delta unchanged, with empty selections and intent `None`. -/
theorem claim_C6 (G : Geom) (cf : List (LaneStrokeRef × ContinuationMode)) :
    (∀ (p : P2) (rest : List P2) (prevRef : P2) (strokes : List LaneStroke),
      G.roughlyWithinP p prevRef G.minStartToEnd = true →
      continueRoadLoop G cf (p :: rest) prevRef strokes =
        continueRoadLoop G cf rest prevRef strokes) ∧
    (∀ (additional_points : List P2) (start : P2) (current : PlanStep),
      (∀ p ∈ additional_points, G.roughlyWithinP p start G.minStartToEnd = true) →
      apply_continue_road G cf additional_points start current =
        some { plan_delta := current.plan_delta, selections := [],
               intent := Intent.None }) := by
  constructor
  · intro p rest prevRef strokes hp
    rw [continueRoadLoop, if_pos hp]
  · intro additional_points start current h
    rw [apply_continue_road, continueRoadLoop_all_skip G cf additional_points start
      current.plan_delta.new_strokes h]

/-- Claim C7: with `n_lanes_per_side = 2` and `create_both_sides = false`,
`NewRoad` synthesizes exactly two single-node strokes before continuation,
offset from `points[0]` by `3.0` and `8.0` along the perpendicular of the
normalized initial direction, with node direction equal to that direction and
continuation mode `Append`, appended to `new_strokes`. -/
theorem claim_C7 (G : Geom) (p0 p1 : P2) (rest : List P2) (current : PlanStep)
    (settings : Settings) (h2 : settings.n_lanes_per_side = 2)
    (hb : settings.create_both_sides = false) :
    newRoadStrokes G p0 (G.normalize (vsub p1 p0)) settings =
      [LaneStroke.with_single_node
         ⟨vadd p0 (smulv 3 (G.orthogonal (G.normalize (vsub p1 p0)))),
          G.normalize (vsub p1 p0)⟩,
       LaneStroke.with_single_node
         ⟨vadd p0 (smulv 8 (G.orthogonal (G.normalize (vsub p1 p0)))),
          G.normalize (vsub p1 p0)⟩] ∧
    newRoadContinueFrom current.plan_delta.new_strokes.length settings =
      [(⟨current.plan_delta.new_strokes.length⟩, ContinuationMode.Append),
       (⟨current.plan_delta.new_strokes.length + 1⟩, ContinuationMode.Append)] ∧
    apply_new_road G (p0 :: p1 :: rest) current settings =
      apply_continue_road G
        (newRoadContinueFrom current.plan_delta.new_strokes.length settings)
        (p1 :: rest) p0
        { current with plan_delta := { current.plan_delta with
            new_strokes := current.plan_delta.new_strokes ++
              newRoadStrokes G p0 (G.normalize (vsub p1 p0)) settings } } := by
  refine ⟨?_, ?_, rfl⟩
  · rw [newRoadStrokes, h2, hb]
    simp only [List.range_succ, List.range_zero, List.nil_append, List.map_append,
      List.map_cons, List.map_nil, if_false, Bool.false_eq_true, List.append_nil]
    norm_num [newRoadOffset, CENTER_LANE_DISTANCE, LANE_DISTANCE]
  · rw [newRoadContinueFrom, h2, hb]
    simp [List.range_succ]

/-- Claim C10: `MaximizeSelection` and `MoveSelection` carry the input's
intent through to the returned snapshot, while `None`, `NewRoad`,
`ContinueRoad`, `Select`, `DeleteSelection` and `CreateNextLane` all return
intent `None`. -/
theorem claim_C10 (G : Geom) (current : PlanStep) (mbs : Option BuiltStrokes)
    (settings : Settings) (step' : PlanStep)
    (h : apply_intent G current mbs settings = Except.ok step') :
    step'.intent =
      if preservesIntent current.intent then current.intent else Intent.None := by
  cases hI : current.intent with
  | None =>
    simp only [apply_intent, hI] at h
    rw [Except.ok.injEq] at h
    subst h
    simp [preservesIntent, hI]
  | NewRoad points =>
    simp only [apply_intent, hI, liftPanic_eq_ok] at h
    simp [preservesIntent, apply_new_road_some G points current settings step' h]
  | ContinueRoad cf pts sr =>
    simp only [apply_intent, hI, liftPanic_eq_ok] at h
    simp [preservesIntent, (apply_continue_road_some G cf pts sr current step' h).2.1]
  | Select sref a b =>
    cases mbs with
    | none => simp [apply_intent, hI] at h
    | some bs =>
      simp only [apply_intent, hI, liftPanic_eq_ok] at h
      simp [preservesIntent, apply_select_some G sref a b current bs settings step' h]
  | MaximizeSelection =>
    cases mbs with
    | none => simp [apply_intent, hI] at h
    | some bs =>
      simp only [apply_intent, hI, liftPanic_eq_ok] at h
      simp [preservesIntent, hI, (apply_maximize_selection_some G current bs step' h).1]
  | MoveSelection dv =>
    cases mbs with
    | none => simp [apply_intent, hI] at h
    | some bs =>
      simp only [apply_intent, hI, liftPanic_eq_ok] at h
      simp [preservesIntent, hI, apply_move_selection_some G dv current bs step' h]
  | DeleteSelection =>
    cases mbs with
    | none => simp [apply_intent, hI] at h
    | some bs =>
      simp only [apply_intent, hI, liftPanic_eq_ok] at h
      simp [preservesIntent, apply_delete_selection_some G current bs step' h]
  | CreateNextLane =>
    cases mbs with
    | none => simp [apply_intent, hI] at h
    | some bs =>
      simp only [apply_intent, hI, liftPanic_eq_ok] at h
      simp [preservesIntent, apply_create_next_lane_some G current bs step' h]

/-- Claim C2: `DeleteSelection` removes no element of the existing
`new_strokes` (the collection of indices to remove is never populated), it
appends the split fragments, and for a single strictly-interior selection the
fragments are exactly the subsection before `start` and the subsection after
`end`; the returned snapshot has empty selections and intent `None`. -/
theorem claim_C2 (G : Geom) (current : PlanStep) (bs : BuiltStrokes) :
    (∀ step', apply_delete_selection G current bs = some step' →
      ∃ frags, step'.plan_delta.new_strokes = current.plan_delta.new_strokes ++ frags ∧
        step'.plan_delta.strokes_to_destroy = current.plan_delta.strokes_to_destroy ∧
        step'.selections = [] ∧ step'.intent = Intent.None) ∧
    (∀ (sref : SelectableStrokeRef) (s e : N) (stroke before after : LaneStroke),
      current.selections = [(sref, (s, e))] →
      get_stroke sref current.plan_delta bs = some stroke →
      0 < s → s < e → e < G.length stroke →
      G.subsection stroke 0 s = some before →
      G.subsection stroke e (G.length stroke) = some after →
      apply_delete_selection G current bs =
        some (PlanStep.mk
          (PlanDelta.mk (current.plan_delta.new_strokes ++ [before, after])
            current.plan_delta.strokes_to_destroy)
          [] Intent.None)) := by
  constructor
  · intro step' h
    unfold apply_delete_selection at h
    split at h
    · exact Option.noConfusion h
    · rw [Option.some.injEq] at h
      subst h
      rename_i frags hfrags
      exact ⟨frags, rfl, rfl, rfl, rfl⟩
  · intro sref s e stroke before after hsel hget h0 hse hel hb ha
    have hfr : deleteFragments G current.plan_delta bs [(sref, (s, e))] =
        some [before, after] := by
      simp only [deleteFragments, hget, hb, ha]
      simp
    unfold apply_delete_selection
    rw [hsel, hfr]
    rfl

/-- Claim C8: `MaximizeSelection` maps every currently selected reference to
the range `(0, length of that stroke's current path)` without changing the
set of selected references, and applying it twice via `apply` yields the same
snapshot as applying it once. -/
theorem claim_C8 (G : Geom) (current : PlanStep) (bs : BuiltStrokes)
    (settings : Settings) :
    (∀ new_sels,
      maximizeSelections G current.plan_delta bs current.selections = some new_sels →
      new_sels.map Prod.fst = current.selections.map Prod.fst ∧
      (∀ e ∈ new_sels, ∃ stroke, get_stroke e.1 current.plan_delta bs = some stroke ∧
        e.2 = ((0 : ℚ), G.length stroke)) ∧
      apply_maximize_selection G current bs =
        some { current with selections := new_sels }) ∧
    (∀ step', current.intent = Intent.MaximizeSelection →
      apply_intent G current (some bs) settings = Except.ok step' →
      apply_intent G step' (some bs) settings = Except.ok step') := by
  constructor
  · intro new_sels h
    obtain ⟨hkeys, hvals⟩ :=
      maximizeSelections_spec G current.plan_delta bs current.selections new_sels h
    refine ⟨hkeys, hvals, ?_⟩
    unfold apply_maximize_selection
    rw [h]
  · intro step' hI h
    simp only [apply_intent, hI, liftPanic_eq_ok] at h
    unfold apply_maximize_selection at h
    split at h
    · exact Option.noConfusion h
    · rw [Option.some.injEq] at h
      rename_i ns hns
      have hI' : step'.intent = Intent.MaximizeSelection := by rw [← h]; exact hI
      simp only [apply_intent, hI', liftPanic_eq_ok]
      unfold apply_maximize_selection
      have hpd : step'.plan_delta = current.plan_delta := by rw [← h]
      have hsels : step'.selections = ns := by rw [← h]
      rw [hpd, hsels, maximizeSelections_idem G current.plan_delta bs
        current.selections ns hns, ← hsels]
      rw [← h]

lemma selectCandidateRange_eq_some_iff (G : Geom) (settings : Settings)
    (sp : P2) (sdir : V2) (ep : P2) (edir : V2) (os : LaneStroke) (rng : N × N) :
    selectCandidateRange G settings sp sdir ep edir os = some rng ↔
      specCandidateCondition G settings sp sdir ep edir os rng := by
  unfold selectCandidateRange specCandidateCondition
  cases hs : G.project os sp with
  | none => simp
  | some sd =>
    cases he : G.project os ep with
    | none => simp
    | some ed =>
      simp only [Option.ite_none_right_eq_some, Option.some.injEq]
      constructor
      · rintro ⟨hadd, hrng⟩
        refine ⟨sd, ed, rfl, rfl, ?_⟩
        rw [Bool.and_eq_true, Bool.and_eq_true] at hadd
        obtain ⟨⟨hA, hB⟩, hC⟩ := hadd
        refine ⟨hA, hB, ?_, ?_⟩
        · by_cases hlt : sd < ed
          · rw [if_pos hlt, Bool.and_eq_true] at hC
            exact Or.inl ⟨hlt, hC.1, hC.2⟩
          · rw [if_neg hlt] at hC
            by_cases hop : settings.select_opposite = true
            · rw [if_pos hop, Bool.and_eq_true] at hC
              exact Or.inr ⟨hlt, hop, hC.1, hC.2⟩
            · rw [if_neg hop] at hC
              exact absurd hC (by simp)
        · rw [← hrng, max_comm ed sd]
      · rintro ⟨sd', ed', hsd', hed', hA, hB, hdir, hrng⟩
        subst hsd'
        subst hed'
        refine ⟨?_, ?_⟩
        · rw [Bool.and_eq_true, Bool.and_eq_true]
          refine ⟨⟨hA, hB⟩, ?_⟩
          rcases hdir with ⟨hlt, h1, h2⟩ | ⟨hnlt, hop, h1, h2⟩
          · rw [if_pos hlt, Bool.and_eq_true]
            exact ⟨h1, h2⟩
          · rw [if_neg hnlt, if_pos hop, Bool.and_eq_true]
            exact ⟨h1, h2⟩
        · rw [hrng, max_comm sd ed]

/-- Claim C9: under parallel selection, a stroke other than the clicked one is
recorded as an additional selection exactly when both endpoint projections
succeed, the projected points are within 60 units of the originals, and the
projected directions match the originals within 0.1 (in projected order;
negated and gated by `select_opposite` in swapped order); the recorded range
is the (min, max) of the projected arc-lengths. -/
theorem claim_C9 (G : Geom) (settings : Settings) (delta : PlanDelta)
    (bs : BuiltStrokes) (sref : SelectableStrokeRef)
    (sp : P2) (sdir : V2) (ep : P2) (edir : V2)
    (oref : SelectableStrokeRef) (rng : N × N) :
    (oref, rng) ∈ selectAdditional G settings delta bs sref sp sdir ep edir ↔
      ∃ os, (oref, os) ∈ allStrokes delta bs ∧ oref ≠ sref ∧
        specCandidateCondition G settings sp sdir ep edir os rng := by
  unfold selectAdditional
  rw [List.mem_filterMap]
  constructor
  · rintro ⟨⟨oref', os⟩, hmem, hf⟩
    dsimp only at hf
    split at hf
    · rw [Option.map_eq_some'] at hf
      rcases hf with ⟨rng', hr, heq⟩
      injection heq with h1 h2
      subst h1
      subst h2
      rename_i hne
      exact ⟨os, hmem, hne,
        (selectCandidateRange_eq_some_iff G settings sp sdir ep edir os rng').1 hr⟩
    · exact Option.noConfusion hf
  · rintro ⟨os, hmem, hne, hcond⟩
    refine ⟨(oref, os), hmem, ?_⟩
    dsimp only
    rw [if_pos hne,
      (selectCandidateRange_eq_some_iff G settings sp sdir ep edir os rng).2 hcond]
    rfl

lemma integrateOne_destroy_inv (G : Geom) (bs : BuiltStrokes)
    (Q : LaneStrokeRef × LaneStroke → Prop)
    (hQ : ∀ r old, alookup bs.mapping r = some old → Q (r, old))
    (acc acc' : PlanDelta × Selections) (entry : SelectableStrokeRef × MovedTuple)
    (h : integrateOne G bs acc entry = some acc')
    (hacc : ∀ e ∈ acc.1.strokes_to_destroy, Q e) :
    ∀ e ∈ acc'.1.strokes_to_destroy, Q e := by
  unfold integrateOne at h
  split at h
  · rw [Option.some.injEq] at h
    subst h
    exact hacc
  · split at h
    · exact Option.noConfusion h
    · split at h
      · exact Option.noConfusion h
      · split at h
        · exact Option.noConfusion h
        · split at h
          · exact Option.noConfusion h
          · split at h
            · split at h
              · rw [Option.some.injEq] at h
                subst h
                exact hacc
              · exact Option.noConfusion h
            · split at h
              · exact Option.noConfusion h
              · rename_i old_stroke hold
                rw [Option.some.injEq] at h
                subst h
                intro e he
                rcases mem_dinsert _ _ _ e he with h' | h'
                · exact hacc e h'
                · rw [h']
                  exact hQ _ _ hold

lemma integrateAll_destroy_inv (G : Geom) (bs : BuiltStrokes)
    (Q : LaneStrokeRef × LaneStroke → Prop)
    (hQ : ∀ r old, alookup bs.mapping r = some old → Q (r, old)) :
    ∀ (l : List (SelectableStrokeRef × MovedTuple)) (acc res : PlanDelta × Selections),
    integrateAll G bs l acc = some res →
    (∀ e ∈ acc.1.strokes_to_destroy, Q e) →
    ∀ e ∈ res.1.strokes_to_destroy, Q e := by
  intro l
  induction l with
  | nil =>
    intro acc res h hacc
    rw [integrateAll, Option.some.injEq] at h
    subst h
    exact hacc
  | cons entry rest ih =>
    intro acc res h hacc
    rw [integrateAll] at h
    split at h
    · exact Option.noConfusion h
    · rename_i acc' hstep
      exact ih acc' res h (integrateOne_destroy_inv G bs Q hQ acc acc' entry hstep hacc)

lemma integrateOne_projfail_none (G : Geom) (bs : BuiltStrokes)
    (ref : SelectableStrokeRef) (t : MovedTuple) (ns : LaneStroke)
    (s0 : LaneStrokeNode)
    (hmk : G.mkStroke (assembleNodes t) = some ns)
    (hh : t.moved.head? = some s0)
    (hp : G.project ns s0.position = none) :
    ∀ acc, integrateOne G bs acc (ref, t) = none := by
  intro acc
  have hne : t.moved ≠ [] := by
    intro hnil
    rw [hnil] at hh
    exact Option.noConfusion hh
  obtain ⟨slast, hl⟩ := Option.isSome_iff_exists.1 (List.getLast?_isSome.2 hne)
  unfold integrateOne
  simp only [hmk, hh, hl, hp]

lemma integrateAll_entry_fail (G : Geom) (bs : BuiltStrokes)
    (ref : SelectableStrokeRef) (t : MovedTuple)
    (hfail : ∀ acc, integrateOne G bs acc (ref, t) = none) :
    ∀ (l : List (SelectableStrokeRef × MovedTuple)) (acc : PlanDelta × Selections),
    (ref, t) ∈ l → integrateAll G bs l acc = none := by
  intro l
  induction l with
  | nil =>
    intro acc h
    exact absurd h (List.not_mem_nil _)
  | cons x rest ih =>
    intro acc h
    rcases List.mem_cons.1 h with h' | h'
    · rw [integrateAll, ← h', hfail acc]
    · cases hx : integrateOne G bs acc x with
      | none => rw [integrateAll, hx]
      | some acc' =>
        rw [integrateAll, hx]
        exact ih acc' h'

/-- Claim C5: `MoveSelection` preserves the invariant that every entry of
`strokes_to_destroy` holds a stroke taken from `BuiltStrokes`; integration of
a successfully rebuilt selection records the original committed stroke in
`strokes_to_destroy` and appends the rebuilt stroke under a fresh `New`
reference when the reference was `Built`, and replaces index `i` in place
with `strokes_to_destroy` unchanged when it was `New i`. -/
theorem claim_C5 (G : Geom) (bs : BuiltStrokes) :
    (∀ (current : PlanStep) (delta_v : V2) (step' : PlanStep),
      apply_move_selection G delta_v current bs = some step' →
      (∀ e ∈ current.plan_delta.strokes_to_destroy,
        alookup bs.mapping e.1 = some e.2) →
      ∀ e ∈ step'.plan_delta.strokes_to_destroy,
        alookup bs.mapping e.1 = some e.2) ∧
    (∀ (delta : PlanDelta) (sels : Selections) (t : MovedTuple)
      (new_stroke : LaneStroke) (s0 slast : LaneStrokeNode) (ps pe : N),
      G.mkStroke (assembleNodes t) = some new_stroke →
      t.moved.head? = some s0 →
      t.moved.getLast? = some slast →
      G.project new_stroke s0.position = some ps →
      G.project new_stroke slast.position = some pe →
      (∀ (old_ref : LaneStrokeRef) (old_stroke : LaneStroke),
        alookup bs.mapping old_ref = some old_stroke →
        integrateOne G bs (delta, sels) (SelectableStrokeRef.Built old_ref, t) =
          some (PlanDelta.mk (delta.new_strokes ++ [new_stroke])
              (dinsert delta.strokes_to_destroy old_ref old_stroke),
            dinsert sels (SelectableStrokeRef.New delta.new_strokes.length)
              (ps, pe))) ∧
      (∀ i : Nat, i < delta.new_strokes.length →
        integrateOne G bs (delta, sels) (SelectableStrokeRef.New i, t) =
          some (PlanDelta.mk (delta.new_strokes.set i new_stroke)
              delta.strokes_to_destroy,
            dinsert sels (SelectableStrokeRef.New i) (ps, pe)))) := by
  constructor
  · intro current delta_v step' h hinv
    unfold apply_move_selection at h
    split at h
    · exact Option.noConfusion h
    · rename_i aligned hal
      split at h
      · exact Option.noConfusion h
      · rename_i res hres
        rw [Option.some.injEq] at h
        subst h
        exact integrateAll_destroy_inv G bs _ (fun _ _ hq => hq) aligned
          (current.plan_delta, []) res hres hinv
  · intro delta sels t new_stroke s0 slast ps pe hmk hh hl hp1 hp2
    constructor
    · intro old_ref old_stroke hold
      unfold integrateOne
      simp only [hmk, hh, hl, hp1, hp2, hold]
    · intro i hi
      unfold integrateOne
      simp only [hmk, hh, hl, hp1, hp2, hi, if_pos]

/-- Claim C1 (counterexample): with a geometry whose projection fails on the
rebuilt stroke, `apply` of a `MoveSelection` intent panics (the source
`unwrap`s the re-projection at lines 404-405), refuting "apply never aborts
because of a failed projection in either handler". -/
theorem claim_C1_counterexample :
    apply_intent G0 stepMove (some bs1) settings0 =
      Except.error ApplyError.handlerPanic := by
  rfl

/-- Claim C1 (amended): a failed projection during parallel-selection
candidate scanning causes only that candidate to be excluded and never a
panic of `apply_select`; but during move-selection reconciliation the
re-projection of the moved range's endpoints onto the rebuilt stroke is
`unwrap`ed, so its failure aborts the whole `apply_move_selection`. -/
theorem claim_C1_amended (G : Geom) :
    (∀ (sref : SelectableStrokeRef) (s e : N) (current : PlanStep)
      (bs : BuiltStrokes) (settings : Settings),
      (get_stroke sref current.plan_delta bs).isSome = true →
      (apply_select G sref s e current bs settings).isSome = true) ∧
    (∀ (settings : Settings) (sp : P2) (sdir : V2) (ep : P2) (edir : V2)
      (os : LaneStroke),
      G.project os sp = none ∨ G.project os ep = none →
      selectCandidateRange G settings sp sdir ep edir os = none) ∧
    (∀ (delta_v : V2) (current : PlanStep) (bs : BuiltStrokes)
      (aligned : List (SelectableStrokeRef × MovedTuple))
      (ref : SelectableStrokeRef) (t : MovedTuple) (ns : LaneStroke)
      (s0 : LaneStrokeNode),
      alignedTuples G delta_v current bs = some aligned →
      (ref, t) ∈ aligned →
      G.mkStroke (assembleNodes t) = some ns →
      t.moved.head? = some s0 →
      G.project ns s0.position = none →
      apply_move_selection G delta_v current bs = none) := by
  refine ⟨?_, ?_, ?_⟩
  · intro sref s e current bs settings h
    obtain ⟨stroke, hst⟩ := Option.isSome_iff_exists.1 h
    unfold apply_select
    split
    · rw [hst]
      rfl
    · rfl
  · intro settings sp sdir ep edir os h
    rcases h with h | h
    · unfold selectCandidateRange
      rw [h]
    · unfold selectCandidateRange
      cases hs : G.project os sp
      · rfl
      · rw [h]
  · intro delta_v current bs aligned ref t ns s0 hal hmem hmk hh hp
    have hall := integrateAll_entry_fail G bs ref t
      (integrateOne_projfail_none G bs ref t ns s0 hmk hh hp) aligned
      (current.plan_delta, []) hmem
    unfold apply_move_selection
    simp only [hal, hall]

/-! ## Witnesses -/

theorem claim_C1_witness :
    (apply_select G0 (SelectableStrokeRef.New 0) 0 1 stepDel bs0 settings0).isSome =
      true ∧
    selectCandidateRange G0 settings0 (0, 0) (1, 0) (0, 0) (1, 0) stroke1 = none ∧
    apply_move_selection G0 (1, 0) stepMove bs1 = none := by
  refine ⟨?_, ?_, ?_⟩
  · exact (claim_C1_amended G0).1 (SelectableStrokeRef.New 0) 0 1 stepDel bs0
      settings0 (by decide)
  · exact (claim_C1_amended G0).2.1 settings0 (0, 0) (1, 0) (0, 0) (1, 0) stroke1
      (Or.inl rfl)
  · exact (claim_C1_amended G0).2.2 (1, 0) stepMove bs1
      [(SelectableStrokeRef.Built ⟨0⟩, tMove)] (SelectableStrokeRef.Built ⟨0⟩)
      tMove stroke1 n0 (by decide) (by decide) (by decide) (by decide) (by decide)

theorem claim_C2_witness :
    apply_delete_selection Gdel stepDel bs0 =
      some (PlanStep.mk
        (PlanDelta.mk (stepDel.plan_delta.new_strokes ++ [stroke1, stroke1])
          stepDel.plan_delta.strokes_to_destroy)
        [] Intent.None) :=
  (claim_C2 Gdel stepDel bs0).2 (SelectableStrokeRef.New 0) 2 5 stroke1 stroke1
    stroke1 rfl (by decide) (by decide) (by decide) (by decide) (by decide)
    (by decide)

theorem claim_C3_witness :
    apply_intent G0 stepSel none settings0 =
      Except.error ApplyError.missingBuiltStrokes :=
  (claim_C3_amended G0 stepSel none settings0).mpr ⟨rfl, rfl⟩

theorem claim_C4_witness :
    continueOneStroke Gwf ((0 : ℚ), (0 : ℚ)) (10, 0) ContinuationMode.Append
      stroke1 = some stroke1 ∧
    ([stroke1].get? 1 = [stroke1].get? 1) :=
  ⟨(claim_C4 Gwf (0, 0) (10, 0)).1 ContinuationMode.Append stroke1
      cwNode rfl rfl,
   (claim_C4 Gwf (0, 0) (10, 0)).2 [(⟨0⟩, ContinuationMode.Append)] [stroke1]
      [stroke1] 1 rfl (by decide)⟩

theorem claim_C5_witness :
    alookup bs1.mapping (LaneStrokeRef.mk 0) = some stroke1 ∧
    integrateOne Gmv bs1 (delta0, ([] : Selections))
        (SelectableStrokeRef.Built ⟨0⟩, tMove) =
      some (PlanDelta.mk (delta0.new_strokes ++ [stroke1])
          (dinsert delta0.strokes_to_destroy ⟨0⟩ stroke1),
        dinsert ([] : Selections)
          (SelectableStrokeRef.New delta0.new_strokes.length) (0, 0)) ∧
    integrateOne Gmv bs1 (delta0, ([] : Selections))
        (SelectableStrokeRef.New 0, tMove) =
      some (PlanDelta.mk (delta0.new_strokes.set 0 stroke1)
          delta0.strokes_to_destroy,
        dinsert ([] : Selections) (SelectableStrokeRef.New 0) (0, 0)) := by
  refine ⟨?_, ?_, ?_⟩
  · exact (claim_C5 Gmv bs1).1 stepMove (1, 0) stepMoveOut (by decide) (by decide)
      (⟨0⟩, stroke1) (by decide)
  · exact ((claim_C5 Gmv bs1).2 delta0 [] tMove stroke1 n0 n0 0 0 (by decide)
      (by decide) (by decide) (by decide) (by decide)).1 ⟨0⟩ stroke1 (by decide)
  · exact ((claim_C5 Gmv bs1).2 delta0 [] tMove stroke1 n0 n0 0 0 (by decide)
      (by decide) (by decide) (by decide) (by decide)).2 0 (by decide)

theorem claim_C6_witness :
    apply_continue_road Gnear [] [((5 : ℚ), (5 : ℚ))] (0, 0) step0 =
      some { plan_delta := step0.plan_delta, selections := [],
             intent := Intent.None } :=
  (claim_C6 Gnear []).2 [(5, 5)] (0, 0) step0 (by decide)

theorem claim_C7_witness :
    settings0.n_lanes_per_side = 2 ∧ settings0.create_both_sides = false ∧
    newRoadStrokes G0 ((0 : ℚ), (0 : ℚ)) (G0.normalize (vsub (1, 0) (0, 0)))
        settings0 =
      [LaneStroke.with_single_node
         ⟨vadd (0, 0) (smulv 3 (G0.orthogonal (G0.normalize (vsub (1, 0) (0, 0))))),
          G0.normalize (vsub (1, 0) (0, 0))⟩,
       LaneStroke.with_single_node
         ⟨vadd (0, 0) (smulv 8 (G0.orthogonal (G0.normalize (vsub (1, 0) (0, 0))))),
          G0.normalize (vsub (1, 0) (0, 0))⟩] :=
  ⟨rfl, rfl, (claim_C7 G0 (0, 0) (1, 0) [] step0 settings0 rfl rfl).1⟩

theorem claim_C8_witness :
    ([((SelectableStrokeRef.Built ⟨0⟩ : SelectableStrokeRef),
        ((0 : ℚ), (0 : ℚ)))].map Prod.fst =
      stepSel.selections.map Prod.fst) ∧
    apply_intent G0 stepSelOut (some bs1) settings0 = Except.ok stepSelOut := by
  constructor
  · exact ((claim_C8 G0 stepSel bs1 settings0).1 [(.Built ⟨0⟩, (0, 0))]
      (by decide)).1
  · exact (claim_C8 G0 stepSel bs1 settings0).2 stepSelOut rfl rfl

theorem claim_C9_witness :
    ((SelectableStrokeRef.New 1 : SelectableStrokeRef), ((1 : ℚ), (2 : ℚ))) ∈
      selectAdditional Gsel settings0 delta2 bs0 (SelectableStrokeRef.New 0)
        (1, 0) (0, 0) (2, 0) (0, 0) :=
  (claim_C9 Gsel settings0 delta2 bs0 (SelectableStrokeRef.New 0) (1, 0) (0, 0)
      (2, 0) (0, 0) (SelectableStrokeRef.New 1) (1, 2)).mpr
    ⟨stroke2, by decide, by decide,
      ⟨1, 2, rfl, rfl, rfl, rfl, Or.inl ⟨by decide, rfl, rfl⟩, by decide⟩⟩

theorem claim_C10_witness :
    stepSelOut.intent =
      if preservesIntent stepSel.intent then stepSel.intent else Intent.None :=
  claim_C10 G0 stepSel (some bs1) settings0 stepSelOut rfl

end Citybound
